import Mathlib

/-!
Verification of the asynchronous workload dispatch engine of the cortex
repository (`pkg/dequeuer/async_handler.go`) against its natural-language
specification.

The handler talks to external collaborators (an S3-like object store, an
HTTP user container, an event sink, a wall clock). Each external call can
succeed or fail independently of the handler's logic, so we embed the
handler as a function of an `Env` that fixes the outcome of every external
operation of one invocation, and we make the handler return the ordered
trace of external operations it performed together with its Go return
value (`Option CError`, `none` meaning the Go `nil` error).
-/

namespace Cortex

/-- Workload status, from `pkg/types/async` (referenced by the handler; the
package itself is not part of the provided sources — the spec gives the
ordered tag `InProgress < Completed`, `InProgress < Failed`). -/
inductive Status
  | inProgress
  | completed
  | failed
deriving DecidableEq

/-- Modelled from the spec: the string name of a status, used by the code
only inside wrapped error messages (`fmt.Sprintf("failed to update status
to %s", ...)`). -/
def statusName : Status → String
  | .inProgress => "in_progress"
  | .completed => "completed"
  | .failed => "failed"

/-- Whether a status is terminal (`Completed` or `Failed`). -/
def isTerminal : Status → Bool
  | .inProgress => false
  | .completed => true
  | .failed => true

/-- Errors returned by the handler. Constructors mirror the error values
built in `async_handler.go`: `errors.ErrorUnexpected`, `errors.Wrap`,
`errors.WithStack`, the `ErrorUserContainer*` constructors, and opaque
errors coming back from the AWS SDK (`aws`) or the Go standard library
(`goError`). -/
inductive CError
  | unexpected (msg : String)
  | wrap (msg : String) (inner : CError)
  | withStack (inner : CError)
  | aws (msg : String)
  | goError (msg : String)
  | userContainerNotReachable (cause : String)
  | userContainerResponseStatusCode (code : Nat)
  | userContainerResponseMissingJSONHeader
  | userContainerResponseNotJSONDecodable
deriving DecidableEq

/-- Result of `aws.S3().GetObject`: body bytes and the optional
`Content-Type` stored with the object (a nil pointer in Go is `none`). -/
structure S3GetObjectOutput where
  body : String
  contentType : Option String
deriving DecidableEq

/-- The `userPayload` struct of `async_handler.go`. -/
structure UserPayload where
  body : String
  contentType : String
deriving DecidableEq

/-- An HTTP response from the user container as observed by the handler:
status code, `Content-Type` header, body bytes. -/
structure HttpResponse where
  statusCode : Nat
  contentType : String
  body : String
deriving DecidableEq

/-- The `AsyncMessageHandlerConfig` struct of `async_handler.go`. -/
structure AsyncMessageHandlerConfig where
  clusterUID : String
  bucket : String
  apiName : String
  targetURL : String

/-- Outcomes of the external operations of one handler invocation. Each
`Except String _` value is the result the external collaborator returns
when (and if) the handler performs that operation: `.error e` carries the
opaque error message. `statusWrite` gives the outcome of the
`UploadStringToS3` marker write per status (each status is written at most
once per invocation), `jsonDecodable` models the Go `json` decoder on the
response body, and `elapsed` is what `time.Since(startTime)` measures. -/
structure Env where
  statusWrite : Status → Except String Unit
  payloadFetch : Except String S3GetObjectOutput
  newRequest : Except String Unit
  httpDo : Except String HttpResponse
  jsonDecodable : String → Bool
  elapsed : Nat
  resultUpload : Except String Unit
  deleteOutcome : Except String Unit

/-- External operations performed by the handler, in order, with the
outcome (`ok`) the collaborator reported where relevant. `writeStatus` is
the marker write, `getPayload` the S3 payload fetch, `httpPost` the
forward to the user container (with the `Content-Type` header value and
the `X-Cortex-Request-ID` header value it sent), `uploadResult` the result
upload, `deletePayload` the payload deletion, and `emitEvent` the
`HandleEvent` call on the event sink. -/
inductive Op
  | writeStatus (requestID : String) (status : Status) (ok : Bool)
  | getPayload (requestID : String) (ok : Bool)
  | httpPost (url : String) (contentType : String) (requestID : String)
  | uploadResult (requestID : String) (value : String) (ok : Bool)
  | deletePayload (requestID : String) (ok : Bool)
  | emitEvent (statusCode : Nat) (duration : Nat)
deriving DecidableEq

/-- An SQS message as the handler sees it: `body` is a nullable string
pointer in Go. A nil message itself is modelled as `none` at the call
site of `Handle`. -/
structure SqsMessage where
  body : Option String

/-- Go's `strings.HasPrefix`, on the character lists of the strings. -/
def stringStartsWith (p s : String) : Bool :=
  p.data.isPrefixOf s.data

/-- Whether an external outcome is a success. -/
def exOk {ε α : Type} : Except ε α → Bool
  | .ok _ => true
  | .error _ => false

/-- The `userPayload` value `getPayload` builds from a successful S3
`GetObject` output. -/
def payloadOfOutput (output : S3GetObjectOutput) : UserPayload :=
  { body := output.body
    contentType := output.contentType.getD "application/octet-stream" }

/-- The handler's `updateStatus`: write the status marker object
(`UploadStringToS3` of the empty string at the status key); an AWS error
is returned to the caller. -/
def updateStatus (env : Env) (requestID : String) (status : Status) :
    List Op × Except CError Unit :=
  match env.statusWrite status with
  | .ok _ => ([Op.writeStatus requestID status true], .ok ())
  | .error e => ([Op.writeStatus requestID status false], .error (.aws e))

/-- The handler's `getPayload`: S3 `GetObject` at the payload key; on
success the content type defaults to `application/octet-stream` when the
object carries none; on failure the AWS error is wrapped with
`errors.WithStack`. -/
def getPayload (env : Env) (requestID : String) :
    List Op × Except CError UserPayload :=
  match env.payloadFetch with
  | .error e => ([Op.getPayload requestID false], .error (.withStack (.aws e)))
  | .ok output =>
      ([Op.getPayload requestID true], .ok (payloadOfOutput output))

/-- The handler's `deletePayload`: `DeleteS3File` at the payload key; a
failure is logged and telemetered but never returned. -/
def deletePayload (env : Env) (requestID : String) : List Op :=
  match env.deleteOutcome with
  | .ok _ => [Op.deletePayload requestID true]
  | .error _ => [Op.deletePayload requestID false]

/-- The handler's `submitRequest`: build the POST request (body = payload
bytes, `Content-Type` = payload content type, `X-Cortex-Request-ID` =
requestID), perform it, and accept only a 200 response whose
`Content-Type` has the `application/json` string as a leading substring
and whose body JSON-decodes; the request event `{statusCode, duration}` is
handed to the event sink only after all three checks pass. On success the
decoded result is represented by the response body it was decoded from. -/
def submitRequest (cfg : AsyncMessageHandlerConfig) (env : Env)
    (payload : UserPayload) (requestID : String) :
    List Op × Except CError String :=
  match env.newRequest with
  | .error e => ([], .error (.withStack (.goError e)))
  | .ok _ =>
      let tr := [Op.httpPost cfg.targetURL payload.contentType requestID]
      match env.httpDo with
      | .error e => (tr, .error (.userContainerNotReachable e))
      | .ok response =>
          if !(response.statusCode == 200) then
            (tr, .error (.userContainerResponseStatusCode response.statusCode))
          else if !(stringStartsWith "application/json" response.contentType) then
            (tr, .error .userContainerResponseMissingJSONHeader)
          else if !(env.jsonDecodable response.body) then
            (tr, .error .userContainerResponseNotJSONDecodable)
          else
            (tr ++ [Op.emitEvent response.statusCode env.elapsed], .ok response.body)

/-- The handler's `uploadResult`: `UploadJSONToS3` of the decoded result
at the result key. -/
def uploadResult (env : Env) (requestID : String) (result : String) :
    List Op × Except CError Unit :=
  match env.resultUpload with
  | .ok _ => ([Op.uploadResult requestID result true], .ok ())
  | .error e => ([Op.uploadResult requestID result false], .error (.aws e))

/-- Error message of a failed marker write, as built with `fmt.Sprintf`. -/
def wrapMsg (s : Status) : String :=
  "failed to update status to " ++ statusName s

/-- The part of `handleMessage` after a successful payload fetch (the
caller appends the deferred `deletePayload` to whatever trace this
produces, mirroring Go's `defer`): forward the payload, then on forward
failure write a Failed marker and return nil unless that very write
failed; on forward success upload the result (Failed marker and the
upload error on failure) and finally write the Completed marker. -/
def afterFetch (cfg : AsyncMessageHandlerConfig) (env : Env)
    (requestID : String) (payload : UserPayload) : List Op × Option CError :=
  match submitRequest cfg env payload requestID with
  | (tr2, .error _) =>
      match updateStatus env requestID .failed with
      | (trF, .error fe) => (tr2 ++ trF, some (.wrap (wrapMsg .failed) fe))
      | (trF, .ok _) => (tr2 ++ trF, none)
  | (tr2, .ok result) =>
      match uploadResult env requestID result with
      | (tr3, .error e) =>
          match updateStatus env requestID .failed with
          | (trF, _) =>
              (tr2 ++ tr3 ++ trF, some (.wrap "failed to upload result to storage" e))
      | (tr3, .ok _) =>
          match updateStatus env requestID .completed with
          | (tr4, .error e) =>
              (tr2 ++ tr3 ++ tr4, some (.wrap (wrapMsg .completed) e))
          | (tr4, .ok _) => (tr2 ++ tr3 ++ tr4, none)

/-- The handler's `handleMessage`: write the InProgress marker (propagate
a failure), fetch the payload (on failure: best-effort Failed marker whose
own failure is only logged, then propagate the wrapped fetch error), then
run the rest with the payload deletion deferred to the invocation's end. -/
def handleMessage (cfg : AsyncMessageHandlerConfig) (env : Env)
    (requestID : String) : List Op × Option CError :=
  match updateStatus env requestID .inProgress with
  | (tr0, .error e) => (tr0, some (.wrap (wrapMsg .inProgress) e))
  | (tr0, .ok _) =>
      match getPayload env requestID with
      | (tr1, .error e) =>
          match updateStatus env requestID .failed with
          | (trF, _) => (tr0 ++ tr1 ++ trF, some (.wrap "failed to get payload" e))
      | (tr1, .ok payload) =>
          match afterFetch cfg env requestID payload with
          | (tr2, res) =>
              (tr0 ++ tr1 ++ tr2 ++ deletePayload env requestID, res)

/-- The handler's `Handle`: reject a nil message or a nil/empty body with
an "unexpected" error before doing anything else, otherwise the message
body is the requestID. -/
def Handle (cfg : AsyncMessageHandlerConfig) (env : Env)
    (message : Option SqsMessage) : List Op × Option CError :=
  match message with
  | none => ([], some (.unexpected "got unexpected nil SQS message"))
  | some msg =>
      match msg.body with
      | none => ([], some (.unexpected "got unexpected sqs message with empty or nil body"))
      | some body =>
          if body = "" then
            ([], some (.unexpected "got unexpected sqs message with empty or nil body"))
          else
            handleMessage cfg env body

/-- Whether the forward to the user container fully succeeds in `env`:
the request could be built, the connection succeeded, the status code is
200, the response `Content-Type` starts with `application/json`, and the
body JSON-decodes. -/
def forwardSucceeds (env : Env) : Bool :=
  exOk env.newRequest &&
  match env.httpDo with
  | .error _ => false
  | .ok response =>
      response.statusCode == 200 &&
      stringStartsWith "application/json" response.contentType &&
      env.jsonDecodable response.body

/-- Whether the forward fails terminally in `env`: the request was built
and sent, and either the connection failed, or the response has a non-200
status, a `Content-Type` not starting with `application/json`, or a body
that does not JSON-decode. -/
def forwardFailsTerminally (env : Env) : Bool :=
  exOk env.newRequest &&
  match env.httpDo with
  | .error _ => true
  | .ok response =>
      !(response.statusCode == 200) ||
      !(stringStartsWith "application/json" response.contentType) ||
      !(env.jsonDecodable response.body)

/-- Whether an infrastructure storage failure occurs during processing in
`env`: the InProgress marker write fails, or the payload fetch fails, or
(after a fully successful forward) the result upload fails, or the
Completed marker write fails. Each later event is guarded by the earlier
operations actually reaching it. -/
def infraFailureOccurs (env : Env) : Bool :=
  !(exOk (env.statusWrite .inProgress)) ||
  (exOk (env.statusWrite .inProgress) && !(exOk env.payloadFetch)) ||
  (exOk (env.statusWrite .inProgress) && exOk env.payloadFetch &&
    forwardSucceeds env && !(exOk env.resultUpload)) ||
  (exOk (env.statusWrite .inProgress) && exOk env.payloadFetch &&
    forwardSucceeds env && exOk env.resultUpload &&
    !(exOk (env.statusWrite .completed)))

/-! Trace predicates. -/

/-- Whether some operation of the trace satisfies `p`. -/
def anyOp (p : Op → Bool) : List Op → Bool
  | [] => false
  | op :: rest => p op || anyOp p rest

/-- How many operations of the trace satisfy `p`. -/
def countOp (p : Op → Bool) : List Op → Nat
  | [] => 0
  | op :: rest => (if p op then 1 else 0) + countOp p rest

/-- Whether `op` is a successful Completed-marker write for `rid`. -/
def isCompletedWriteFor (rid : String) (op : Op) : Bool :=
  match op with
  | .writeStatus r s ok => r == rid && s == Status.completed && ok
  | _ => false

/-- Whether `op` is a Failed-marker write attempt for `rid`. -/
def isFailedWriteFor (rid : String) (op : Op) : Bool :=
  match op with
  | .writeStatus r s _ => r == rid && s == Status.failed
  | _ => false

/-- Whether `op` is a payload-deletion attempt for `rid`. -/
def isDeleteFor (rid : String) (op : Op) : Bool :=
  match op with
  | .deletePayload r _ => r == rid
  | _ => false

/-- Whether `op` is an event emission. -/
def isEmitOp (op : Op) : Bool :=
  match op with
  | .emitEvent _ _ => true
  | _ => false

/-- Whether `op` is an HTTP forward. -/
def isPostOp (op : Op) : Bool :=
  match op with
  | .httpPost _ _ _ => true
  | _ => false

/-- Whether every HTTP forward in the trace carries `Content-Type` `ct`
and request id `rid`. -/
def postsAllHave (ct rid : String) : List Op → Bool
  | [] => true
  | .httpPost _ c r :: rest => c == ct && r == rid && postsAllHave ct rid rest
  | _ :: rest => postsAllHave ct rid rest

/-- Ordering check for the claim that terminal markers are only written
after a successful InProgress write: `seen` records whether a successful
InProgress-marker write for `rid` has occurred; any terminal-marker write
attempt for `rid` before that makes the check fail. -/
def checkOrder (rid : String) (seen : Bool) : List Op → Bool
  | [] => true
  | .writeStatus r s ok :: rest =>
      if r == rid && isTerminal s then
        seen && checkOrder rid seen rest
      else
        checkOrder rid (seen || (r == rid && s == Status.inProgress && ok)) rest
  | _ :: rest => checkOrder rid seen rest

/-- Downgrade check for the terminal-marker invariant: `term` records
whether a terminal marker for `rid` has been successfully written; a
successful InProgress-marker write for `rid` after that makes the check
fail. -/
def noDowngrade (rid : String) (term : Bool) : List Op → Bool
  | [] => true
  | .writeStatus r s ok :: rest =>
      if r == rid && s == Status.inProgress && ok && term then
        false
      else
        noDowngrade rid (term || (r == rid && ok && isTerminal s)) rest
  | _ :: rest => noDowngrade rid term rest

/-- Ordering check that the Completed marker is only written after a
successful result upload for the same request: `seen` records whether a
successful result upload for `rid` has occurred. -/
def resultBeforeCompleted (rid : String) (seen : Bool) : List Op → Bool
  | [] => true
  | .uploadResult r _ ok :: rest =>
      resultBeforeCompleted rid (seen || (r == rid && ok)) rest
  | .writeStatus r s ok :: rest =>
      if r == rid && s == Status.completed && ok && !seen then
        false
      else
        resultBeforeCompleted rid seen rest
  | _ :: rest => resultBeforeCompleted rid seen rest

/-- The trace of operations produced by repeated deliveries of the same
message under the queue's contract: the message is redelivered (with a
fresh environment for the new invocation) exactly as long as the handler
returns an error. -/
def deliveryTrace (cfg : AsyncMessageHandlerConfig) :
    List Env → String → List Op
  | [], _ => []
  | env :: rest, rid =>
      match handleMessage cfg env rid with
      | (tr, some _) => tr ++ deliveryTrace cfg rest rid
      | (tr, none) => tr

/-! Object-store model. The key helpers (`async.StoragePath`,
`StatusPath`, `PayloadPath`, `ResultPath`) live in `pkg/types/async`,
which is not part of the provided sources. Modelled from the spec: keys
are derived deterministically from `(clusterUID, apiName, requestID,
artifact-kind)` with artifact-kind one of status marker, payload, result,
and the pattern is separator-agnostic, so we model a key as exactly that
tuple. -/

/-- Modelled from the spec: the artifact kind component of a storage key. -/
inductive ArtifactKind
  | statusMarker (s : Status)
  | payload
  | result
deriving DecidableEq

/-- Modelled from the spec: a deterministic storage key
`(clusterUID, apiName, requestID, artifact-kind)`. -/
structure StoreKey where
  clusterUID : String
  apiName : String
  requestID : String
  kind : ArtifactKind
deriving DecidableEq

/-- The status-marker key of a request. -/
def statusKeyOf (cfg : AsyncMessageHandlerConfig) (rid : String)
    (s : Status) : StoreKey :=
  ⟨cfg.clusterUID, cfg.apiName, rid, .statusMarker s⟩

/-- The payload key of a request. -/
def payloadKeyOf (cfg : AsyncMessageHandlerConfig) (rid : String) : StoreKey :=
  ⟨cfg.clusterUID, cfg.apiName, rid, .payload⟩

/-- The result key of a request. -/
def resultKeyOf (cfg : AsyncMessageHandlerConfig) (rid : String) : StoreKey :=
  ⟨cfg.clusterUID, cfg.apiName, rid, .result⟩

/-- The object store: an association list from keys to object contents. -/
def Store : Type := List (StoreKey × String)

/-- Look an object up in the store (the most recent write wins). -/
def lookupStore (st : Store) (k : StoreKey) : Option String :=
  match st with
  | [] => none
  | (k2, v) :: rest => if k2 = k then some v else lookupStore rest k

/-- Put an object into the store. -/
def insertStore (st : Store) (k : StoreKey) (v : String) : Store :=
  (k, v) :: st

/-- Delete an object from the store. -/
def removeStore (st : Store) (k : StoreKey) : Store :=
  match st with
  | [] => []
  | (k2, v) :: rest =>
      if k2 = k then removeStore rest k else (k2, v) :: removeStore rest k

/-- The effect of one traced operation on the store: successful marker
writes create zero-content marker objects, successful result uploads
create the result object, successful payload deletions remove the payload
object; everything else (reads, HTTP, events, failed operations) leaves
the store unchanged. -/
def applyOp (cfg : AsyncMessageHandlerConfig) (st : Store) : Op → Store
  | .writeStatus rid s true => insertStore st (statusKeyOf cfg rid s) ""
  | .uploadResult rid v true => insertStore st (resultKeyOf cfg rid) v
  | .deletePayload rid true => removeStore st (payloadKeyOf cfg rid)
  | _ => st

/-- The effect of a whole trace on the store. -/
def applyTrace (cfg : AsyncMessageHandlerConfig) (st : Store) :
    List Op → Store
  | [] => st
  | op :: rest => applyTrace cfg (applyOp cfg st op) rest

/-! Concrete configurations and environments used by witnesses and
counterexamples. -/

/-- A concrete handler configuration. -/
def cfg0 : AsyncMessageHandlerConfig :=
  { clusterUID := "cluster-1", bucket := "bkt", apiName := "api-a"
    targetURL := "http://localhost:8080" }

/-- A concrete environment in which every external operation succeeds and
the container answers 200 with a JSON body. -/
def envHappy : Env :=
  { statusWrite := fun _ => .ok ()
    payloadFetch := .ok { body := "input", contentType := some "application/octet-stream" }
    newRequest := .ok ()
    httpDo := .ok { statusCode := 200, contentType := "application/json", body := "1" }
    jsonDecodable := fun _ => true
    elapsed := 5
    resultUpload := .ok ()
    deleteOutcome := .ok () }

/-- A concrete environment in which the payload fetch fails and
everything else succeeds. -/
def envFetchFail : Env :=
  { envHappy with payloadFetch := .error "NoSuchKey" }

/-- A concrete environment in which everything succeeds except the
best-effort payload deletion. -/
def envDeleteFail : Env :=
  { envHappy with deleteOutcome := .error "AccessDenied" }

/-- A concrete environment in which the connection to the user container
fails and everything else succeeds. -/
def envConnFail : Env :=
  { envHappy with httpDo := .error "connection refused" }

/-- A concrete environment in which the result upload fails and
everything else succeeds. -/
def envUploadFail : Env :=
  { envHappy with resultUpload := .error "ServiceUnavailable" }

/-- A concrete environment in which the payload object carries no content
type and the container answers 500. -/
def envNoCT500 : Env :=
  { envHappy with
    payloadFetch := .ok { body := "input", contentType := none }
    httpDo := .ok { statusCode := 500, contentType := "text/plain", body := "err" } }

/-- A concrete user payload. -/
def payload0 : UserPayload :=
  { body := "input", contentType := "application/octet-stream" }

/-- Whether every operation of the trace satisfies `p`. -/
def allOp (p : Op → Bool) : List Op → Bool
  | [] => true
  | op :: rest => p op && allOp p rest

/-- Whether `op` is one of the operations `submitRequest` can trace: the
HTTP forward or the event emission. -/
def isForwardOp (op : Op) : Bool :=
  match op with
  | .httpPost _ _ _ => true
  | .emitEvent _ _ => true
  | _ => false

/-- Whether `op` is one of the operations `afterFetch` traces after the
forward: a result upload or a terminal-marker write. -/
def isTailOp (op : Op) : Bool :=
  match op with
  | .uploadResult _ _ _ => true
  | .writeStatus _ s _ => isTerminal s
  | _ => false

/-- Whether `op` is an InProgress-marker write attempt. -/
def isIpWrite (op : Op) : Bool :=
  match op with
  | .writeStatus _ s _ => s == Status.inProgress
  | _ => false

/-- A concrete initial store holding a payload object for request
`req-1`. -/
def store0 : Store := [(payloadKeyOf cfg0 "req-1", "data")]

/-! Shape lemmas: the exact trace and return value of the handler in each
branch of its control flow, each under the environment hypotheses that
select the branch. -/

theorem handleMessage_ip_fail (cfg : AsyncMessageHandlerConfig) (env : Env)
    (rid : String) (e : String)
    (h : env.statusWrite .inProgress = .error e) :
    handleMessage cfg env rid =
      ([Op.writeStatus rid .inProgress false],
       some (.wrap (wrapMsg .inProgress) (.aws e))) := by
  simp [handleMessage, updateStatus, h]

theorem handleMessage_fetch_fail (cfg : AsyncMessageHandlerConfig)
    (env : Env) (rid : String) (e : String)
    (h1 : env.statusWrite .inProgress = .ok ())
    (h2 : env.payloadFetch = .error e) :
    handleMessage cfg env rid =
      ([Op.writeStatus rid .inProgress true, Op.getPayload rid false,
        Op.writeStatus rid .failed (exOk (env.statusWrite .failed))],
       some (.wrap "failed to get payload" (.withStack (.aws e)))) := by
  cases hf : env.statusWrite .failed <;>
    simp [handleMessage, updateStatus, getPayload, exOk, h1, h2, hf]

theorem handleMessage_fetched (cfg : AsyncMessageHandlerConfig) (env : Env)
    (rid : String) (output : S3GetObjectOutput)
    (h1 : env.statusWrite .inProgress = .ok ())
    (h2 : env.payloadFetch = .ok output) :
    handleMessage cfg env rid =
      ([Op.writeStatus rid .inProgress true, Op.getPayload rid true] ++
         (afterFetch cfg env rid (payloadOfOutput output)).1 ++
         [Op.deletePayload rid (exOk env.deleteOutcome)],
       (afterFetch cfg env rid (payloadOfOutput output)).2) := by
  cases haf : afterFetch cfg env rid (payloadOfOutput output) with
  | mk tr res =>
      cases hd : env.deleteOutcome <;>
        simp [handleMessage, updateStatus, getPayload, deletePayload, exOk,
          h1, h2, haf, hd]

theorem submitRequest_newReq_fail (cfg : AsyncMessageHandlerConfig)
    (env : Env) (p : UserPayload) (rid : String) (e : String)
    (h : env.newRequest = .error e) :
    submitRequest cfg env p rid = ([], .error (.withStack (.goError e))) := by
  simp [submitRequest, h]

theorem submitRequest_conn_fail (cfg : AsyncMessageHandlerConfig)
    (env : Env) (p : UserPayload) (rid : String) (e : String)
    (h1 : env.newRequest = .ok ())
    (h2 : env.httpDo = .error e) :
    submitRequest cfg env p rid =
      ([Op.httpPost cfg.targetURL p.contentType rid],
       .error (.userContainerNotReachable e)) := by
  simp [submitRequest, h1, h2]

theorem submitRequest_ok (cfg : AsyncMessageHandlerConfig) (env : Env)
    (p : UserPayload) (rid : String) (response : HttpResponse)
    (h1 : env.newRequest = .ok ())
    (h2 : env.httpDo = .ok response)
    (h3 : response.statusCode = 200)
    (h4 : stringStartsWith "application/json" response.contentType = true)
    (h5 : env.jsonDecodable response.body = true) :
    submitRequest cfg env p rid =
      ([Op.httpPost cfg.targetURL p.contentType rid,
        Op.emitEvent response.statusCode env.elapsed],
       .ok response.body) := by
  simp [submitRequest, h1, h2, h3, h4, h5]

theorem submitRequest_ok_iff (cfg : AsyncMessageHandlerConfig) (env : Env)
    (p : UserPayload) (rid : String) :
    exOk (submitRequest cfg env p rid).2 = forwardSucceeds env := by
  cases h1 : env.newRequest with
  | error e => simp [submitRequest, forwardSucceeds, exOk, h1]
  | ok u =>
      cases h2 : env.httpDo with
      | error e => simp [submitRequest, forwardSucceeds, exOk, h1, h2]
      | ok response =>
          cases h3 : response.statusCode == 200 <;>
            cases h4 : stringStartsWith "application/json" response.contentType <;>
              cases h5 : env.jsonDecodable response.body <;>
                simp [submitRequest, forwardSucceeds, exOk, h1, h2, h3, h4, h5]

theorem submitRequest_fail_shape (cfg : AsyncMessageHandlerConfig)
    (env : Env) (p : UserPayload) (rid : String)
    (h1 : env.newRequest = .ok ())
    (h0 : forwardSucceeds env = false) :
    (submitRequest cfg env p rid).1 =
      [Op.httpPost cfg.targetURL p.contentType rid] := by
  cases h2 : env.httpDo with
  | error e => simp [submitRequest, h1, h2]
  | ok response =>
      cases h3 : response.statusCode == 200 <;>
        cases h4 : stringStartsWith "application/json" response.contentType <;>
          cases h5 : env.jsonDecodable response.body <;>
            simp_all [submitRequest, forwardSucceeds, exOk, h1]

theorem afterFetch_submit_fail_markOk (cfg : AsyncMessageHandlerConfig)
    (env : Env) (rid : String) (p : UserPayload) (e : CError)
    (hs : (submitRequest cfg env p rid).2 = .error e)
    (hf : env.statusWrite .failed = .ok ()) :
    afterFetch cfg env rid p =
      ((submitRequest cfg env p rid).1 ++ [Op.writeStatus rid .failed true],
       none) := by
  cases hsr : submitRequest cfg env p rid with
  | mk tr r =>
      rw [hsr] at hs
      simp at hs
      simp [afterFetch, updateStatus, hsr, hs, hf]

theorem afterFetch_submit_fail_markFail (cfg : AsyncMessageHandlerConfig)
    (env : Env) (rid : String) (p : UserPayload) (e : CError) (fe : String)
    (hs : (submitRequest cfg env p rid).2 = .error e)
    (hf : env.statusWrite .failed = .error fe) :
    afterFetch cfg env rid p =
      ((submitRequest cfg env p rid).1 ++ [Op.writeStatus rid .failed false],
       some (.wrap (wrapMsg .failed) (.aws fe))) := by
  cases hsr : submitRequest cfg env p rid with
  | mk tr r =>
      rw [hsr] at hs
      simp at hs
      simp [afterFetch, updateStatus, hsr, hs, hf]

theorem afterFetch_upload_fail (cfg : AsyncMessageHandlerConfig) (env : Env)
    (rid : String) (p : UserPayload) (v : String) (ue : String)
    (hs : (submitRequest cfg env p rid).2 = .ok v)
    (hu : env.resultUpload = .error ue) :
    afterFetch cfg env rid p =
      ((submitRequest cfg env p rid).1 ++
         [Op.uploadResult rid v false,
          Op.writeStatus rid .failed (exOk (env.statusWrite .failed))],
       some (.wrap "failed to upload result to storage" (.aws ue))) := by
  cases hsr : submitRequest cfg env p rid with
  | mk tr r =>
      rw [hsr] at hs
      simp at hs
      cases hf : env.statusWrite .failed <;>
        simp [afterFetch, updateStatus, uploadResult, exOk, hsr, hs, hu, hf]

theorem afterFetch_completed_fail (cfg : AsyncMessageHandlerConfig)
    (env : Env) (rid : String) (p : UserPayload) (v : String) (ce : String)
    (hs : (submitRequest cfg env p rid).2 = .ok v)
    (hu : env.resultUpload = .ok ())
    (hc : env.statusWrite .completed = .error ce) :
    afterFetch cfg env rid p =
      ((submitRequest cfg env p rid).1 ++
         [Op.uploadResult rid v true, Op.writeStatus rid .completed false],
       some (.wrap (wrapMsg .completed) (.aws ce))) := by
  cases hsr : submitRequest cfg env p rid with
  | mk tr r =>
      rw [hsr] at hs
      simp at hs
      simp [afterFetch, updateStatus, uploadResult, hsr, hs, hu, hc]

theorem afterFetch_happy (cfg : AsyncMessageHandlerConfig) (env : Env)
    (rid : String) (p : UserPayload) (v : String)
    (hs : (submitRequest cfg env p rid).2 = .ok v)
    (hu : env.resultUpload = .ok ())
    (hc : env.statusWrite .completed = .ok ()) :
    afterFetch cfg env rid p =
      ((submitRequest cfg env p rid).1 ++
         [Op.uploadResult rid v true, Op.writeStatus rid .completed true],
       none) := by
  cases hsr : submitRequest cfg env p rid with
  | mk tr r =>
      rw [hsr] at hs
      simp at hs
      simp [afterFetch, updateStatus, uploadResult, hsr, hs, hu, hc]

/-! Generic facts about the trace predicates. -/

theorem anyOp_append (p : Op → Bool) (a b : List Op) :
    anyOp p (a ++ b) = (anyOp p a || anyOp p b) := by
  induction a with
  | nil => simp [anyOp]
  | cons op rest ih => simp [anyOp, ih, Bool.or_assoc]

theorem allOp_append (p : Op → Bool) (a b : List Op) :
    allOp p (a ++ b) = (allOp p a && allOp p b) := by
  induction a with
  | nil => simp [allOp]
  | cons op rest ih => simp [allOp, ih, Bool.and_assoc]

theorem countOp_append (p : Op → Bool) (a b : List Op) :
    countOp p (a ++ b) = countOp p a + countOp p b := by
  induction a with
  | nil => simp [countOp]
  | cons op rest ih => simp [countOp, ih]; omega

theorem countOp_zero_of_allOp (p q : Op → Bool)
    (h : ∀ op, p op = true → q op = false) :
    ∀ tr : List Op, allOp p tr = true → countOp q tr = 0 := by
  intro tr
  induction tr with
  | nil => simp [countOp]
  | cons op rest ih =>
      intro hall
      simp [allOp] at hall
      simp [countOp, h op hall.1, ih hall.2]

theorem checkOrder_true (rid : String) (tr : List Op) :
    checkOrder rid true tr = true := by
  induction tr with
  | nil => simp [checkOrder]
  | cons op rest ih =>
      cases op with
      | writeStatus r s ok =>
          by_cases h : (r == rid && isTerminal s) = true
          · simp [checkOrder, h, ih]
          · simp only [checkOrder]
            rw [if_neg h]
            simp [ih]
      | getPayload r ok => simp [checkOrder, ih]
      | httpPost u c r => simp [checkOrder, ih]
      | uploadResult r v ok => simp [checkOrder, ih]
      | deletePayload r ok => simp [checkOrder, ih]
      | emitEvent c d => simp [checkOrder, ih]

theorem noDowngrade_of_no_ip (rid : String) (term : Bool) (tr : List Op)
    (h : allOp (fun op => !(isIpWrite op)) tr = true) :
    noDowngrade rid term tr = true := by
  induction tr generalizing term with
  | nil => simp [noDowngrade]
  | cons op rest ih =>
      simp [allOp] at h
      cases op with
      | writeStatus r s ok =>
          have hs : (s == Status.inProgress) = false := by
            simpa [isIpWrite] using h.1
          simp [noDowngrade, hs, ih _ h.2]
      | getPayload r ok => simp [noDowngrade, ih _ h.2]
      | httpPost u c r => simp [noDowngrade, ih _ h.2]
      | uploadResult r v ok => simp [noDowngrade, ih _ h.2]
      | deletePayload r ok => simp [noDowngrade, ih _ h.2]
      | emitEvent c d => simp [noDowngrade, ih _ h.2]

theorem postsAllHave_append (ct rid : String) (a b : List Op) :
    postsAllHave ct rid (a ++ b) =
      (postsAllHave ct rid a && postsAllHave ct rid b) := by
  induction a with
  | nil => simp [postsAllHave]
  | cons op rest ih =>
      cases op <;> simp [postsAllHave, ih, Bool.and_assoc]

theorem postsAllHave_of_no_post (ct rid : String) (tr : List Op)
    (h : allOp (fun op => !(isPostOp op)) tr = true) :
    postsAllHave ct rid tr = true := by
  induction tr with
  | nil => simp [postsAllHave]
  | cons op rest ih =>
      simp [allOp] at h
      cases op with
      | httpPost u c r => simp [isPostOp] at h
      | writeStatus r s ok => simp [postsAllHave, ih h.2]
      | getPayload r ok => simp [postsAllHave, ih h.2]
      | uploadResult r v ok => simp [postsAllHave, ih h.2]
      | deletePayload r ok => simp [postsAllHave, ih h.2]
      | emitEvent c d => simp [postsAllHave, ih h.2]

/-! Structural facts about the traces of `submitRequest` and
`afterFetch`. -/

theorem submit_error_of_not_forward (cfg : AsyncMessageHandlerConfig)
    (env : Env) (p : UserPayload) (rid : String)
    (h : forwardSucceeds env = false) :
    ∃ e, (submitRequest cfg env p rid).2 = .error e := by
  have hiff := submitRequest_ok_iff cfg env p rid
  rw [h] at hiff
  cases hs : (submitRequest cfg env p rid).2 with
  | error e => exact ⟨e, rfl⟩
  | ok v => rw [hs] at hiff; simp [exOk] at hiff

theorem submit_ok_of_forward (cfg : AsyncMessageHandlerConfig) (env : Env)
    (p : UserPayload) (rid : String)
    (h : forwardSucceeds env = true) :
    ∃ v, (submitRequest cfg env p rid).2 = .ok v := by
  have hiff := submitRequest_ok_iff cfg env p rid
  rw [h] at hiff
  cases hs : (submitRequest cfg env p rid).2 with
  | error e => rw [hs] at hiff; simp [exOk] at hiff
  | ok v => exact ⟨v, rfl⟩

theorem submitRequest_allOp (cfg : AsyncMessageHandlerConfig) (env : Env)
    (p : UserPayload) (rid : String) :
    allOp isForwardOp (submitRequest cfg env p rid).1 = true := by
  cases h1 : env.newRequest with
  | error e => simp [submitRequest, h1, allOp]
  | ok u =>
      cases h2 : env.httpDo with
      | error e => simp [submitRequest, h1, h2, allOp, isForwardOp]
      | ok response =>
          cases h3 : response.statusCode == 200 <;>
            cases h4 : stringStartsWith "application/json" response.contentType <;>
              cases h5 : env.jsonDecodable response.body <;>
                simp [submitRequest, h1, h2, h3, h4, h5, allOp, isForwardOp]

theorem submitRequest_post_count (cfg : AsyncMessageHandlerConfig)
    (env : Env) (p : UserPayload) (rid : String)
    (h1 : env.newRequest = .ok ()) :
    countOp isPostOp (submitRequest cfg env p rid).1 = 1 ∧
    postsAllHave p.contentType rid (submitRequest cfg env p rid).1 = true := by
  cases h2 : env.httpDo with
  | error e => simp [submitRequest, h1, h2, countOp, isPostOp, postsAllHave]
  | ok response =>
      cases h3 : response.statusCode == 200 <;>
        cases h4 : stringStartsWith "application/json" response.contentType <;>
          cases h5 : env.jsonDecodable response.body <;>
            simp [submitRequest, h1, h2, h3, h4, h5, countOp, isPostOp,
              postsAllHave]

theorem afterFetch_split (cfg : AsyncMessageHandlerConfig) (env : Env)
    (rid : String) (p : UserPayload) :
    ∃ rest, (afterFetch cfg env rid p).1 =
        (submitRequest cfg env p rid).1 ++ rest ∧
      allOp isTailOp rest = true := by
  cases hF : forwardSucceeds env with
  | false =>
      obtain ⟨e, hs⟩ := submit_error_of_not_forward cfg env p rid hF
      cases hf : env.statusWrite .failed with
      | error fe =>
          rw [afterFetch_submit_fail_markFail cfg env rid p e fe hs hf]
          exact ⟨_, rfl, by simp [allOp, isTailOp, isTerminal]⟩
      | ok u =>
          cases u
          rw [afterFetch_submit_fail_markOk cfg env rid p e hs hf]
          exact ⟨_, rfl, by simp [allOp, isTailOp, isTerminal]⟩
  | true =>
      obtain ⟨v, hs⟩ := submit_ok_of_forward cfg env p rid hF
      cases hu : env.resultUpload with
      | error ue =>
          rw [afterFetch_upload_fail cfg env rid p v ue hs hu]
          exact ⟨_, rfl, by simp [allOp, isTailOp, isTerminal]⟩
      | ok u =>
          cases u
          cases hc : env.statusWrite .completed with
          | error ce =>
              rw [afterFetch_completed_fail cfg env rid p v ce hs hu hc]
              exact ⟨_, rfl, by simp [allOp, isTailOp, isTerminal]⟩
          | ok u2 =>
              cases u2
              rw [afterFetch_happy cfg env rid p v hs hu hc]
              exact ⟨_, rfl, by simp [allOp, isTailOp, isTerminal]⟩

theorem afterFetch_no_ip (cfg : AsyncMessageHandlerConfig) (env : Env)
    (rid : String) (p : UserPayload) :
    allOp (fun op => !(isIpWrite op)) (afterFetch cfg env rid p).1 = true := by
  obtain ⟨rest, heq, hrest⟩ := afterFetch_split cfg env rid p
  rw [heq, allOp_append, Bool.and_eq_true]
  constructor
  · have hsub := submitRequest_allOp cfg env p rid
    revert hsub
    generalize (submitRequest cfg env p rid).1 = tr
    induction tr with
    | nil => simp [allOp]
    | cons op r ih =>
        intro h
        simp [allOp] at h ⊢
        refine ⟨?_, ih h.2⟩
        cases op <;> simp_all [isForwardOp, isIpWrite]
  · revert hrest
    generalize rest = tr
    induction tr with
    | nil => simp [allOp]
    | cons op r ih =>
        intro h
        simp [allOp] at h ⊢
        refine ⟨?_, ih h.2⟩
        cases op with
        | writeStatus r2 s ok =>
            have : isTerminal s = true := by simpa [isTailOp] using h.1
            cases s <;> simp_all [isTerminal, isIpWrite]
        | _ => simp [isIpWrite]

/-! The claims. -/

/-- C6: for every message that is nil or whose body is nil or the empty
string, `Handle` returns a non-nil "unexpected" error, writes no status
marker and performs no storage or HTTP operation at all (the trace is
empty). -/
theorem unexpected_message_rejected (cfg : AsyncMessageHandlerConfig)
    (env : Env) :
    Handle cfg env none =
      ([], some (.unexpected "got unexpected nil SQS message")) ∧
    Handle cfg env (some ⟨none⟩) =
      ([], some (.unexpected "got unexpected sqs message with empty or nil body")) ∧
    Handle cfg env (some ⟨some ""⟩) =
      ([], some (.unexpected "got unexpected sqs message with empty or nil body")) := by
  refine ⟨rfl, rfl, ?_⟩
  simp [Handle]

/-- C7: for every request whose InProgress-marker write succeeds but whose
payload fetch fails, a best-effort Failed-marker write is attempted (its
outcome is exactly the outcome the store reports for it, so a failure of
that secondary write changes the trace flag only, never the returned
error); on a successful write both the InProgress and the Failed markers
have been written; the handler returns a non-nil error wrapping the
original fetch failure. -/
theorem missing_payload_markers_and_error (cfg : AsyncMessageHandlerConfig)
    (env : Env) (rid : String) (e : String)
    (h1 : env.statusWrite .inProgress = .ok ())
    (h2 : env.payloadFetch = .error e) :
    (handleMessage cfg env rid).1 =
      [Op.writeStatus rid .inProgress true, Op.getPayload rid false,
       Op.writeStatus rid .failed (exOk (env.statusWrite .failed))] ∧
    (handleMessage cfg env rid).2 =
      some (.wrap "failed to get payload" (.withStack (.aws e))) := by
  rw [handleMessage_fetch_fail cfg env rid e h1 h2]
  exact ⟨rfl, rfl⟩

/-- Witness for C7 at a concrete environment where the payload is
missing: both markers are written and the wrapped fetch error is
returned. -/
theorem missing_payload_markers_and_error_witness :
    envFetchFail.statusWrite .inProgress = .ok () ∧
    envFetchFail.payloadFetch = .error "NoSuchKey" ∧
    ((handleMessage cfg0 envFetchFail "req-2").1 =
      [Op.writeStatus "req-2" .inProgress true, Op.getPayload "req-2" false,
       Op.writeStatus "req-2" .failed (exOk (envFetchFail.statusWrite .failed))] ∧
    (handleMessage cfg0 envFetchFail "req-2").2 =
      some (.wrap "failed to get payload" (.withStack (.aws "NoSuchKey")))) :=
  ⟨rfl, rfl,
   missing_payload_markers_and_error cfg0 envFetchFail "req-2" "NoSuchKey"
     rfl rfl⟩

/-- C4: within every single handler invocation, no Completed or Failed
marker write is even attempted for a requestID unless an InProgress-marker
write for that requestID has already succeeded earlier in the
invocation. -/
theorem terminal_write_after_inProgress (cfg : AsyncMessageHandlerConfig)
    (env : Env) (rid : String) :
    checkOrder rid false (handleMessage cfg env rid).1 = true := by
  cases h1 : env.statusWrite .inProgress with
  | error e =>
      rw [handleMessage_ip_fail cfg env rid e h1]
      simp [checkOrder, isTerminal]
  | ok u =>
      cases u
      cases h2 : env.payloadFetch with
      | error e =>
          rw [handleMessage_fetch_fail cfg env rid e h1 h2]
          simp [checkOrder, isTerminal]
      | ok output =>
          rw [handleMessage_fetched cfg env rid output h1 h2]
          simp only [List.cons_append, List.nil_append]
          simp [checkOrder, isTerminal, checkOrder_true]

/-- C3 (amended): within a single handler invocation, once a terminal
marker (Completed or Failed) has been successfully written for a
requestID, no successful InProgress-marker write for that requestID
follows in that invocation. -/
theorem no_downgrade_within_invocation (cfg : AsyncMessageHandlerConfig)
    (env : Env) (rid : String) :
    noDowngrade rid false (handleMessage cfg env rid).1 = true := by
  cases h1 : env.statusWrite .inProgress with
  | error e =>
      rw [handleMessage_ip_fail cfg env rid e h1]
      simp [noDowngrade, isTerminal]
  | ok u =>
      cases u
      cases h2 : env.payloadFetch with
      | error e =>
          rw [handleMessage_fetch_fail cfg env rid e h1 h2]
          simp [noDowngrade, isTerminal]
      | ok output =>
          rw [handleMessage_fetched cfg env rid output h1 h2]
          simp only [List.cons_append, List.nil_append]
          simp only [noDowngrade, isTerminal]
          rw [if_neg (by simp)]
          simp only [Bool.or_false, Bool.and_false]
          refine noDowngrade_of_no_ip rid false _ ?_
          rw [allOp_append, Bool.and_eq_true]
          refine ⟨afterFetch_no_ip cfg env rid (payloadOfOutput output), ?_⟩
          cases hd : env.deleteOutcome <;>
            simp [deletePayload, allOp, isIpWrite, exOk]

/-- Counterexample for C3 as stated: the claim quantifies over all handler
invocations including queue redeliveries of the same message, but when the
payload fetch fails the handler both writes a Failed marker and returns an
error, so the queue redelivers the message and the retrying invocation
writes an InProgress marker after the already-written Failed marker. The
delivery sequence with a fetch failure followed by a successful retry
exhibits this: the first invocation errors (so redelivery happens) and the
combined marker-write trace violates the no-downgrade check. -/
theorem terminal_then_inProgress_counterexample :
    ((handleMessage cfg0 envFetchFail "req-2").2).isSome = true ∧
    noDowngrade "req-2" false
      (deliveryTrace cfg0 [envFetchFail, envHappy] "req-2") = false := by
  decide

theorem forward_terminal_not_success (env : Env)
    (h : forwardFailsTerminally env = true) :
    forwardSucceeds env = false := by
  cases h1 : env.newRequest with
  | error e => simp [forwardSucceeds, exOk, h1]
  | ok u =>
      cases h2 : env.httpDo with
      | error e => simp [forwardSucceeds, exOk, h1, h2]
      | ok response =>
          simp [forwardFailsTerminally, forwardSucceeds, exOk, h1, h2] at h ⊢
          cases h3 : response.statusCode == 200 <;>
            cases h4 : stringStartsWith "application/json" response.contentType <;>
              cases h5 : env.jsonDecodable response.body <;>
                simp_all

/-- C1: for every delivered message (non-empty body `rid`) whose
InProgress-marker write and payload fetch succeed, if the forward to the
user container fails terminally (connection failure, non-200 status,
response Content-Type not starting with `application/json`, or
non-decodable body), then a Failed-marker write is attempted; if that
write succeeds `Handle` returns nil (the message is acknowledged), and if
it fails `Handle` returns a non-nil error. -/
theorem handle_ack_on_terminal_forward_failure
    (cfg : AsyncMessageHandlerConfig) (env : Env) (rid : String)
    (hrid : rid ≠ "")
    (hip : env.statusWrite .inProgress = .ok ())
    (hp : exOk env.payloadFetch = true)
    (hterm : forwardFailsTerminally env = true) :
    anyOp (isFailedWriteFor rid) (Handle cfg env (some ⟨some rid⟩)).1 = true ∧
    (env.statusWrite .failed = .ok () →
      (Handle cfg env (some ⟨some rid⟩)).2 = none) ∧
    (∀ fe, env.statusWrite .failed = .error fe →
      ((Handle cfg env (some ⟨some rid⟩)).2).isSome = true) := by
  have hH : Handle cfg env (some ⟨some rid⟩) = handleMessage cfg env rid := by
    simp [Handle, hrid]
  rw [hH]
  cases hpf : env.payloadFetch with
  | error e => rw [hpf] at hp; simp [exOk] at hp
  | ok output =>
      rw [handleMessage_fetched cfg env rid output hip hpf]
      have hFS : forwardSucceeds env = false := forward_terminal_not_success env hterm
      obtain ⟨e, hs⟩ :=
        submit_error_of_not_forward cfg env (payloadOfOutput output) rid hFS
      cases hf : env.statusWrite .failed with
      | ok u =>
          cases u
          rw [afterFetch_submit_fail_markOk cfg env rid (payloadOfOutput output) e hs hf]
          refine ⟨?_, fun _ => rfl, fun fe hfe => nomatch hfe⟩
          simp [anyOp_append, anyOp, isFailedWriteFor]
      | error fe0 =>
          rw [afterFetch_submit_fail_markFail cfg env rid (payloadOfOutput output) e fe0 hs hf]
          refine ⟨?_, ?_, fun fe hfe => rfl⟩
          · simp [anyOp_append, anyOp, isFailedWriteFor]
          · intro hok
            exact Except.noConfusion hok

/-- Witness for C1 at a concrete environment where the connection to the
user container fails and the Failed-marker write succeeds: the Failed
write is attempted and `Handle` acknowledges. -/
theorem handle_ack_on_terminal_forward_failure_witness :
    ("req-3" ≠ "") ∧ exOk envConnFail.payloadFetch = true ∧
    forwardFailsTerminally envConnFail = true ∧
    (anyOp (isFailedWriteFor "req-3")
        (Handle cfg0 envConnFail (some ⟨some "req-3"⟩)).1 = true ∧
      (envConnFail.statusWrite .failed = .ok () →
        (Handle cfg0 envConnFail (some ⟨some "req-3"⟩)).2 = none) ∧
      (∀ fe, envConnFail.statusWrite .failed = .error fe →
        ((Handle cfg0 envConnFail (some ⟨some "req-3"⟩)).2).isSome = true)) :=
  ⟨by decide, by decide, by decide,
   handle_ack_on_terminal_forward_failure cfg0 envConnFail "req-3"
     (by decide) rfl (by decide) (by decide)⟩

/-- C2: for every infrastructure storage failure during processing —
failed InProgress write, failed payload fetch, failed result upload after
a successful forward, or failed Completed write — the handler returns a
non-nil error, so the message is left for redelivery. -/
theorem handle_err_on_infra_failure (cfg : AsyncMessageHandlerConfig)
    (env : Env) (rid : String)
    (h : infraFailureOccurs env = true) :
    ((handleMessage cfg env rid).2).isSome = true := by
  cases h1 : env.statusWrite .inProgress with
  | error e =>
      rw [handleMessage_ip_fail cfg env rid e h1]
      rfl
  | ok u =>
      cases u
      cases h2 : env.payloadFetch with
      | error e =>
          rw [handleMessage_fetch_fail cfg env rid e h1 h2]
          rfl
      | ok output =>
          rw [handleMessage_fetched cfg env rid output h1 h2]
          cases hF : forwardSucceeds env with
          | false =>
              simp [infraFailureOccurs, exOk, h1, h2, hF] at h
          | true =>
              obtain ⟨v, hs⟩ :=
                submit_ok_of_forward cfg env (payloadOfOutput output) rid hF
              cases hu : env.resultUpload with
              | error ue =>
                  rw [afterFetch_upload_fail cfg env rid (payloadOfOutput output) v ue hs hu]
                  rfl
              | ok u2 =>
                  cases u2
                  cases hc : env.statusWrite .completed with
                  | error ce =>
                      rw [afterFetch_completed_fail cfg env rid
                        (payloadOfOutput output) v ce hs hu hc]
                      rfl
                  | ok u3 =>
                      simp [infraFailureOccurs, exOk, h1, h2, hF, hu, hc] at h

/-- Witness for C2 at a concrete environment where the result upload
fails: the handler returns an error. -/
theorem handle_err_on_infra_failure_witness :
    infraFailureOccurs envUploadFail = true ∧
    ((handleMessage cfg0 envUploadFail "req-4").2).isSome = true :=
  ⟨by decide,
   handle_err_on_infra_failure cfg0 envUploadFail "req-4" (by decide)⟩

theorem allOp_mono (p q : Op → Bool) (h : ∀ op, p op = true → q op = true) :
    ∀ tr : List Op, allOp p tr = true → allOp q tr = true := by
  intro tr
  induction tr with
  | nil => simp [allOp]
  | cons op rest ih =>
      intro hall
      simp [allOp] at hall ⊢
      exact ⟨h op hall.1, ih hall.2⟩

theorem anyOp_false_of_allOp (p q : Op → Bool)
    (h : ∀ op, p op = true → q op = false) :
    ∀ tr : List Op, allOp p tr = true → anyOp q tr = false := by
  intro tr
  induction tr with
  | nil => simp [anyOp]
  | cons op rest ih =>
      intro hall
      simp [allOp] at hall
      simp [anyOp, h op hall.1, ih hall.2]

theorem applyTrace_append (cfg : AsyncMessageHandlerConfig) (st : Store)
    (a b : List Op) :
    applyTrace cfg st (a ++ b) = applyTrace cfg (applyTrace cfg st a) b := by
  induction a generalizing st with
  | nil => simp [applyTrace]
  | cons op rest ih => simp [applyTrace, ih]

theorem lookup_remove_self (st : Store) (k : StoreKey) :
    lookupStore (removeStore st k) k = none := by
  induction st with
  | nil => simp [removeStore, lookupStore]
  | cons kv rest ih =>
      cases kv with
      | mk k2 v =>
          by_cases hk : k2 = k
          · simp [removeStore, hk, ih]
          · simp [removeStore, lookupStore, hk, ih]

theorem resultBeforeCompleted_forward (rid : String) (tr rest : List Op)
    (h : allOp isForwardOp tr = true) (seen : Bool) :
    resultBeforeCompleted rid seen (tr ++ rest) =
      resultBeforeCompleted rid seen rest := by
  induction tr with
  | nil => simp
  | cons op tr2 ih =>
      simp [allOp] at h
      cases op with
      | httpPost u c r => simp [resultBeforeCompleted, ih h.2]
      | emitEvent c d => simp [resultBeforeCompleted, ih h.2]
      | writeStatus r s ok => simp [isForwardOp] at h
      | getPayload r ok => simp [isForwardOp] at h
      | uploadResult r v ok => simp [isForwardOp] at h
      | deletePayload r ok => simp [isForwardOp] at h

theorem applyTrace_forward (cfg : AsyncMessageHandlerConfig) (st : Store)
    (tr rest : List Op) (h : allOp isForwardOp tr = true) :
    applyTrace cfg st (tr ++ rest) = applyTrace cfg st rest := by
  induction tr generalizing st with
  | nil => simp
  | cons op tr2 ih =>
      simp [allOp] at h
      cases op with
      | httpPost u c r => simp [applyTrace, applyOp, ih _ h.2]
      | emitEvent c d => simp [applyTrace, applyOp, ih _ h.2]
      | writeStatus r s ok => simp [isForwardOp] at h
      | getPayload r ok => simp [isForwardOp] at h
      | uploadResult r v ok => simp [isForwardOp] at h
      | deletePayload r ok => simp [isForwardOp] at h

theorem afterFetch_count_delete (cfg : AsyncMessageHandlerConfig)
    (env : Env) (rid rid2 : String) (p : UserPayload) :
    countOp (isDeleteFor rid2) (afterFetch cfg env rid p).1 = 0 := by
  obtain ⟨rest, heq, hrest⟩ := afterFetch_split cfg env rid p
  rw [heq, countOp_append]
  have h1 : countOp (isDeleteFor rid2) (submitRequest cfg env p rid).1 = 0 := by
    refine countOp_zero_of_allOp isForwardOp _ ?_ _
      (submitRequest_allOp cfg env p rid)
    intro op hop
    cases op <;> simp_all [isForwardOp, isDeleteFor]
  have h2 : countOp (isDeleteFor rid2) rest = 0 := by
    refine countOp_zero_of_allOp isTailOp _ ?_ _ hrest
    intro op hop
    cases op <;> simp_all [isTailOp, isDeleteFor]
  omega

/-- C8: deletion of the payload object is attempted exactly once per
invocation in which the payload fetch happened and succeeded (that is,
the InProgress write succeeded and then the fetch succeeded), and zero
times otherwise; and the outcome of the deletion never influences the
handler's returned error. -/
theorem delete_once_per_fetch (cfg : AsyncMessageHandlerConfig) (env : Env)
    (rid : String) :
    countOp (isDeleteFor rid) (handleMessage cfg env rid).1 =
      (if exOk (env.statusWrite .inProgress) && exOk env.payloadFetch
       then 1 else 0) ∧
    (∀ d, (handleMessage cfg { env with deleteOutcome := d } rid).2 =
      (handleMessage cfg env rid).2) := by
  constructor
  · cases h1 : env.statusWrite .inProgress with
    | error e =>
        rw [handleMessage_ip_fail cfg env rid e h1]
        simp [countOp, isDeleteFor, exOk, h1]
    | ok u =>
        cases u
        cases h2 : env.payloadFetch with
        | error e =>
            rw [handleMessage_fetch_fail cfg env rid e h1 h2]
            simp [countOp, isDeleteFor, exOk, h1, h2]
        | ok output =>
            rw [handleMessage_fetched cfg env rid output h1 h2]
            simp only [List.cons_append, List.nil_append]
            simp [countOp, countOp_append, isDeleteFor, exOk, h1, h2,
              afterFetch_count_delete]
  · intro d
    cases env with
    | mk sw pf nr hd jd el ru dl =>
        cases h1 : sw Status.inProgress with
        | error e =>
            rw [handleMessage_ip_fail cfg (Env.mk sw pf nr hd jd el ru dl)
                rid e h1,
              handleMessage_ip_fail cfg (Env.mk sw pf nr hd jd el ru d)
                rid e h1]
        | ok u =>
            cases u
            cases pf with
            | error e =>
                rw [handleMessage_fetch_fail cfg
                    (Env.mk sw (Except.error e) nr hd jd el ru dl) rid e h1 rfl,
                  handleMessage_fetch_fail cfg
                    (Env.mk sw (Except.error e) nr hd jd el ru d) rid e h1 rfl]
            | ok output =>
                rw [handleMessage_fetched cfg
                    (Env.mk sw (Except.ok output) nr hd jd el ru dl) rid
                    output h1 rfl,
                  handleMessage_fetched cfg
                    (Env.mk sw (Except.ok output) nr hd jd el ru d) rid
                    output h1 rfl]
                rfl

/-- C9: a request event is handed to the event sink exactly when the
forward fully succeeds: on success the forward's trace is the POST
followed by exactly one event carrying the response's status code and the
measured (positive) duration; on any terminal forward failure no event is
emitted. -/
theorem event_iff_forward_success (cfg : AsyncMessageHandlerConfig)
    (env : Env) (p : UserPayload) (rid : String)
    (hpos : 0 < env.elapsed) :
    (forwardSucceeds env = true →
      ∃ response, env.httpDo = .ok response ∧
        (submitRequest cfg env p rid).1 =
          [Op.httpPost cfg.targetURL p.contentType rid,
           Op.emitEvent response.statusCode env.elapsed] ∧
        0 < env.elapsed) ∧
    (forwardSucceeds env = false →
      countOp isEmitOp (submitRequest cfg env p rid).1 = 0) := by
  constructor
  · intro hF
    cases h1 : env.newRequest with
    | error e => simp [forwardSucceeds, exOk, h1] at hF
    | ok u =>
        cases u
        cases h2 : env.httpDo with
        | error e => simp [forwardSucceeds, exOk, h1, h2] at hF
        | ok response =>
            simp [forwardSucceeds, exOk, h1, h2] at hF
            obtain ⟨⟨hFa, hFb⟩, hFc⟩ := hF
            refine ⟨response, rfl, ?_, hpos⟩
            rw [submitRequest_ok cfg env p rid response h1 h2 hFa hFb hFc]
  · intro hF
    cases h1 : env.newRequest with
    | error e =>
        rw [submitRequest_newReq_fail cfg env p rid e h1]
        simp [countOp]
    | ok u =>
        cases u
        rw [submitRequest_fail_shape cfg env p rid h1 hF]
        simp [countOp, isEmitOp]

/-- Witness for C9 at a concrete environment in which the forward
succeeds: exactly one event with the response's status code and the
measured duration. -/
theorem event_iff_forward_success_witness :
    0 < envHappy.elapsed ∧ forwardSucceeds envHappy = true ∧
    (∃ response, envHappy.httpDo = .ok response ∧
      (submitRequest cfg0 envHappy payload0 "req-1").1 =
        [Op.httpPost cfg0.targetURL payload0.contentType "req-1",
         Op.emitEvent response.statusCode envHappy.elapsed] ∧
      0 < envHappy.elapsed) :=
  ⟨by decide, by decide,
   (event_iff_forward_success cfg0 envHappy payload0 "req-1" (by decide)).1
     (by decide)⟩

/-- C10: whenever the payload fetch succeeds and the POST request is
built, the single forward to the user container carries the header
`Content-Type: application/octet-stream` when the stored payload object
carries no content type, and the stored content type unchanged
otherwise. -/
theorem post_content_type_default (cfg : AsyncMessageHandlerConfig)
    (env : Env) (rid : String) (output : S3GetObjectOutput)
    (h1 : env.statusWrite .inProgress = .ok ())
    (h2 : env.payloadFetch = .ok output)
    (h3 : env.newRequest = .ok ()) :
    countOp isPostOp (handleMessage cfg env rid).1 = 1 ∧
    postsAllHave
      (match output.contentType with
       | none => "application/octet-stream"
       | some ct => ct) rid (handleMessage cfg env rid).1 = true := by
  have hct : (payloadOfOutput output).contentType =
      (match output.contentType with
       | none => "application/octet-stream"
       | some ct => ct) := by
    cases output with
    | mk b ct => cases ct <;> rfl
  rw [handleMessage_fetched cfg env rid output h1 h2]
  obtain ⟨rest, heq, hrest⟩ := afterFetch_split cfg env rid (payloadOfOutput output)
  obtain ⟨hcount, hposts⟩ :=
    submitRequest_post_count cfg env (payloadOfOutput output) rid h3
  have hnopost : allOp (fun op => !(isPostOp op)) rest = true := by
    refine allOp_mono isTailOp _ ?_ rest hrest
    intro op hop
    cases op <;> simp_all [isTailOp, isPostOp]
  have hrestcount : countOp isPostOp rest = 0 := by
    refine countOp_zero_of_allOp isTailOp _ ?_ _ hrest
    intro op hop
    cases op <;> simp_all [isTailOp, isPostOp]
  constructor
  · simp only [List.cons_append, List.nil_append, heq]
    simp [countOp, countOp_append, isPostOp, hcount, hrestcount]
  · simp only [List.cons_append, List.nil_append, heq]
    rw [← hct]
    simp [postsAllHave, postsAllHave_append, hposts,
      postsAllHave_of_no_post _ _ _ hnopost]

/-- Witness for C10 at a concrete environment whose payload object
carries no content type: the single POST carries
`Content-Type: application/octet-stream`. -/
theorem post_content_type_default_witness :
    envNoCT500.payloadFetch =
      .ok { body := "input", contentType := none } ∧
    (countOp isPostOp (handleMessage cfg0 envNoCT500 "req-6").1 = 1 ∧
      postsAllHave "application/octet-stream" "req-6"
        (handleMessage cfg0 envNoCT500 "req-6").1 = true) :=
  ⟨rfl,
   post_content_type_default cfg0 envNoCT500 "req-6"
     { body := "input", contentType := none } rfl rfl rfl⟩

theorem submit_no_completed (cfg : AsyncMessageHandlerConfig) (env : Env)
    (p : UserPayload) (rid rid2 : String) :
    anyOp (isCompletedWriteFor rid2) (submitRequest cfg env p rid).1 = false := by
  refine anyOp_false_of_allOp isForwardOp _ ?_ _ (submitRequest_allOp cfg env p rid)
  intro op hop
  cases op <;> simp_all [isForwardOp, isCompletedWriteFor]

/-- C5 (amended): for every requestID whose processing writes the
Completed marker, a result object has been successfully uploaded at the
deterministic result key before the Completed marker is written, and
deletion of the payload object is attempted afterwards; when that
best-effort deletion succeeds, the payload object no longer exists in the
store after processing. -/
theorem completed_implies_result_then_delete
    (cfg : AsyncMessageHandlerConfig) (env : Env) (rid : String)
    (st0 : Store)
    (h : anyOp (isCompletedWriteFor rid) (handleMessage cfg env rid).1 = true) :
    resultBeforeCompleted rid false (handleMessage cfg env rid).1 = true ∧
    anyOp (isDeleteFor rid) (handleMessage cfg env rid).1 = true ∧
    (env.deleteOutcome = .ok () →
      lookupStore (applyTrace cfg st0 (handleMessage cfg env rid).1)
        (payloadKeyOf cfg rid) = none) := by
  cases h1 : env.statusWrite .inProgress with
  | error e =>
      rw [handleMessage_ip_fail cfg env rid e h1] at h
      simp [anyOp, isCompletedWriteFor] at h
  | ok u =>
      cases u
      cases h2 : env.payloadFetch with
      | error e =>
          rw [handleMessage_fetch_fail cfg env rid e h1 h2] at h
          simp [anyOp, isCompletedWriteFor] at h
      | ok output =>
          rw [handleMessage_fetched cfg env rid output h1 h2] at h ⊢
          have hsub := submit_no_completed cfg env (payloadOfOutput output) rid rid
          cases hF : forwardSucceeds env with
          | false =>
              obtain ⟨e, hs⟩ :=
                submit_error_of_not_forward cfg env (payloadOfOutput output) rid hF
              cases hf : env.statusWrite .failed with
              | ok u2 =>
                  cases u2
                  rw [afterFetch_submit_fail_markOk cfg env rid
                    (payloadOfOutput output) e hs hf] at h
                  simp [anyOp_append, anyOp, isCompletedWriteFor, hsub] at h
              | error fe =>
                  rw [afterFetch_submit_fail_markFail cfg env rid
                    (payloadOfOutput output) e fe hs hf] at h
                  simp [anyOp_append, anyOp, isCompletedWriteFor, hsub] at h
          | true =>
              obtain ⟨v, hs⟩ :=
                submit_ok_of_forward cfg env (payloadOfOutput output) rid hF
              cases hu : env.resultUpload with
              | error ue =>
                  rw [afterFetch_upload_fail cfg env rid
                    (payloadOfOutput output) v ue hs hu] at h
                  simp [anyOp_append, anyOp, isCompletedWriteFor, hsub] at h
              | ok u2 =>
                  cases u2
                  cases hc : env.statusWrite .completed with
                  | error ce =>
                      rw [afterFetch_completed_fail cfg env rid
                        (payloadOfOutput output) v ce hs hu hc] at h
                      simp [anyOp_append, anyOp, isCompletedWriteFor, hsub] at h
                  | ok u3 =>
                      cases u3
                      rw [afterFetch_happy cfg env rid
                        (payloadOfOutput output) v hs hu hc]
                      have hfwd :=
                        submitRequest_allOp cfg env (payloadOfOutput output) rid
                      refine ⟨?_, ?_, ?_⟩
                      · simp only [List.cons_append, List.nil_append,
                          List.append_assoc]
                        simp only [resultBeforeCompleted]
                        rw [if_neg (by simp)]
                        rw [resultBeforeCompleted_forward rid _ _ hfwd false]
                        simp [resultBeforeCompleted]
                      · simp [anyOp_append, anyOp, isDeleteFor]
                      · intro hdel
                        have hdel2 : exOk env.deleteOutcome = true := by
                          rw [hdel]; rfl
                        rw [hdel2]
                        simp only [List.cons_append, List.nil_append,
                          List.append_assoc]
                        simp only [applyTrace, applyOp]
                        rw [applyTrace_forward cfg _ _ _ hfwd]
                        simp only [applyTrace, applyOp]
                        exact lookup_remove_self _ _

/-- Witness for the amended C5 at a concrete all-success environment and
an initial store holding the payload: the result upload precedes the
Completed write and the payload object is gone afterwards. -/
theorem completed_implies_result_then_delete_witness :
    anyOp (isCompletedWriteFor "req-1")
      (handleMessage cfg0 envHappy "req-1").1 = true ∧
    (resultBeforeCompleted "req-1" false
        (handleMessage cfg0 envHappy "req-1").1 = true ∧
      anyOp (isDeleteFor "req-1") (handleMessage cfg0 envHappy "req-1").1 = true ∧
      (envHappy.deleteOutcome = .ok () →
        lookupStore (applyTrace cfg0 store0 (handleMessage cfg0 envHappy "req-1").1)
          (payloadKeyOf cfg0 "req-1") = none)) :=
  ⟨by decide,
   completed_implies_result_then_delete cfg0 envHappy "req-1" store0 (by decide)⟩

/-- Counterexample for C5 as stated: it claims the payload object no
longer exists after any processing that reaches Completed, but payload
deletion is best-effort — when `DeleteS3File` fails the failure is only
logged, so in an invocation whose deletion fails the Completed marker is
written while the payload object is still present afterwards. -/
theorem completed_payload_remains_counterexample :
    anyOp (isCompletedWriteFor "req-5")
      (handleMessage cfg0 envDeleteFail "req-5").1 = true ∧
    lookupStore
      (applyTrace cfg0 [(payloadKeyOf cfg0 "req-5", "data")]
        (handleMessage cfg0 envDeleteFail "req-5").1)
      (payloadKeyOf cfg0 "req-5") = some "data" := by
  decide

end Cortex
